import Mathlib

/-!
Verification development for the ssh-forward-proxy repository
(`ssh_forward_proxy/__init__.py` plus its `util`/`stream` helpers).

The Python classes `ServerInterface`, `Proxy`, `ProxyServer` and `Server`
are shallowly embedded: stateful methods become explicit state-passing
functions, the paramiko result constants become `Nat` constants, and the
command queue becomes a FIFO list.  Parts of the repository that are not
present in the source tree (`util.py`, `stream.py`) are modelled from the
design document and are marked as such in their doc comments.
-/

namespace SSHForwardProxy

/-- Embeds the paramiko constant `OPEN_SUCCEEDED` (value 0). -/
def OPEN_SUCCEEDED : Nat := 0

/-- Embeds the paramiko constant `OPEN_FAILED_ADMINISTRATIVELY_PROHIBITED` (value 1). -/
def OPEN_FAILED_ADMINISTRATIVELY_PROHIBITED : Nat := 1

/-- Embeds the paramiko constant `AUTH_SUCCESSFUL` (value 0). -/
def AUTH_SUCCESSFUL : Nat := 0

/-- Embeds `ServerInterface.timeout = 10`: the rendezvous window in seconds. -/
def ServerInterface.timeout : Nat := 10

/-- Embeds `ServerInterface.check_channel_request`: a channel-open request is
accepted exactly when the requested kind is the string `session`. -/
def ServerInterface.check_channel_request (kind : String) (_chanid : Nat) : Nat :=
  if kind = "session" then OPEN_SUCCEEDED else OPEN_FAILED_ADMINISTRATIVELY_PROHIBITED

/-- State of one inbound session, as far as the command rendezvous is
concerned: the FIFO `queue.Queue` of `(channel, command)` pairs, the
transport-closed flag, and the log of error messages emitted. -/
structure SessionState where
  queue : List (Nat × String)
  transportClosed : Bool
  loggedErrors : List String
deriving DecidableEq

/-- State of a fresh session: empty queue, transport open, nothing logged. -/
def initialSession : SessionState :=
  { queue := [], transportClosed := false, loggedErrors := [] }

/-- Embeds `ServerInterface.check_channel_exec_request`: the pair
`(channel, command)` is appended to the session queue and `True` is
returned (the request is accepted). -/
def ServerInterface.check_channel_exec_request (st : SessionState) (channel : Nat)
    (command : String) : SessionState × Bool :=
  ({ st with queue := st.queue ++ [(channel, command)] }, true)

/-- Embeds `ServerInterface.get_command`: pop the first queued pair; if the
queue is empty when the timeout elapses, log the error, close the transport
and return `(None, None)` (here `none`). -/
def ServerInterface.get_command (st : SessionState) : SessionState × Option (Nat × String) :=
  match st.queue with
  | [] =>
      ({ st with transportClosed := true,
                 loggedErrors := st.loggedErrors ++ ["Client passed no commands"] }, none)
  | p :: rest => ({ st with queue := rest }, some p)

/-- Delivery of a whole sequence of execute-command requests into the
session queue, in arrival order, via `check_channel_exec_request`. -/
def deliverExecRequests (st : SessionState) (reqs : List (Nat × String)) : SessionState :=
  reqs.foldl (fun s r => (ServerInterface.check_channel_exec_request s r.1 r.2).1) st

/-- Embeds the control flow of `Proxy.__init__` after the handshake: the
requests delivered during the rendezvous window sit in the queue;
`get_command` is called once; if it returned a channel the command is
relayed (the relay calls `remote.exec_command(command)` exactly once).
Returns the session state after the rendezvous together with the list of
commands executed on the resolved target. -/
def Proxy.runSession (reqs : List (Nat × String)) : SessionState × List String :=
  match ServerInterface.get_command (deliverExecRequests initialSession reqs) with
  | (st2, none) => (st2, [])
  | (st2, some (_, c)) => (st2, [c])

/-- State that `Proxy.check_auth_none` touches: the stored username. -/
structure ProxyAuthState where
  username : Option String
deriving DecidableEq

/-- Embeds `Proxy.check_auth_none`: store the username, report success. -/
def Proxy.check_auth_none (st : ProxyAuthState) (username : String) : ProxyAuthState × Nat :=
  ({ st with username := some username }, AUTH_SUCCESSFUL)

/-- Embeds `Proxy.get_allowed_auths`: the advertised method list. -/
def Proxy.get_allowed_auths (_username : String) : String := "none"

/-- Embeds `Server.check_auth_none`: report success. -/
def Server.check_auth_none (_username : String) : Nat := AUTH_SUCCESSFUL

/-- Embeds `Server.get_allowed_auths`: the advertised method list. -/
def Server.get_allowed_auths (_username : String) : String := "none"

/-- One logical direction of the relay: the bytes still to be read from its
source and the bytes already delivered to its sink. -/
structure Dir where
  src : List Nat
  sink : List Nat
deriving DecidableEq

/-- The three directions of a relay run: client input to target input,
target output to client output, target error to client error. -/
structure RelayState where
  inputDir : Dir
  outputDir : Dir
  errDir : Dir
deriving DecidableEq

/-- Names of the three relay directions. -/
inductive Direction
  | inputD
  | outputD
  | errD
deriving DecidableEq

/-- Modelled from the spec: the bounded chunk size used by each relay
direction (`stream.py` is not under src/; spec section 4.3 requires reading
up to a bounded chunk and writing it fully before re-checking readiness). -/
def CHUNK : Nat := 1024

/-- One scheduling step of one direction: read up to `CHUNK` bytes from the
source and deliver them, in order, to that direction's own sink. -/
def stepDir (d : Dir) : Dir :=
  { src := d.src.drop CHUNK, sink := d.sink ++ d.src.take CHUNK }

/-- One scheduling step of the whole relay: the scheduled direction makes
progress; the other two directions are untouched. -/
def relayStep (st : RelayState) : Direction → RelayState
  | Direction.inputD => { st with inputDir := stepDir st.inputDir }
  | Direction.outputD => { st with outputDir := stepDir st.outputDir }
  | Direction.errD => { st with errDir := stepDir st.errDir }

/-- Modelled from the spec: `pipe_streams` (`stream.py` is not under src/).
Spec section 4.3 treats the relay as three independent byte streams, each
driven by readiness; the nondeterministic interleaving of the three
execution units is captured by an arbitrary schedule of direction steps. -/
def pipe_streams (st : RelayState) (sched : List Direction) : RelayState :=
  sched.foldl relayStep st

/-- A relay state is drained when every direction reached end-of-data. -/
def drained (st : RelayState) : Bool :=
  st.inputDir.src.isEmpty && st.outputDir.src.isEmpty && st.errDir.src.isEmpty

/-- Initial relay state: the three source byte sequences, empty sinks. -/
def initRelay (a b c : List Nat) : RelayState :=
  ⟨⟨a, []⟩, ⟨b, []⟩, ⟨c, []⟩⟩

/-- Observable facts about a channel endpoint used by the exit-status phase:
whether it is closed, whether the exit status is ready, and the status. -/
structure Chan where
  closed : Bool
  exitStatusReady : Bool
  exitStatus : Nat
deriving DecidableEq

/-- Embeds the exit-status phase of `Proxy.relay_to_remote` (after
`pipe_streams` returns): if `remote.exit_status_ready()` then the received
status is sent to the client with `client.send_exit_status`; the list of
statuses sent to the client is returned.  Note the code does not consult
`client.closed` here. -/
def Proxy.exitStatusPhase (_client remote : Chan) : List Nat :=
  if remote.exitStatusReady then [remote.exitStatus] else []

/-- Embeds the exit-status phase of `Server.__init__` (after `pipe_streams`
returns): if the client channel is not closed, `process.wait()` is sent via
`client.send_exit_status`; the list of statuses sent is returned. -/
def Server.exitStatusPhase (client : Chan) (processStatus : Nat) : List Nat :=
  if client.closed then [] else [processStatus]

/-- The individual close operations appearing in the teardown code. -/
inductive CloseOp
  | closeClient
  | closeRemote
  | closeTransport
  | closeStdout
  | closeStdin
  | closeStderr
  | killProcess
deriving DecidableEq

/-- Python semantics of a sequence of statements inside one `finally` block
with no inner `try`: the operations run in order; the first one that raises
aborts the remaining ones.  Returns the operations actually attempted and
whether an exception escaped. -/
def runCloses (fails : CloseOp → Bool) : List CloseOp → List CloseOp × Bool
  | [] => ([], false)
  | o :: rest =>
      if fails o then ([o], true)
      else
        match runCloses fails rest with
        | (done, e) => (o :: done, e)

/-- Embeds the `finally` block of `Proxy.relay_to_remote`: `client.close()`,
then `self.remote.close()` when a remote was connected, then
`self.transport.close()`. -/
def Proxy.teardownOps (hasRemote : Bool) : List CloseOp :=
  CloseOp.closeClient :: (if hasRemote then [CloseOp.closeRemote] else [])
    ++ [CloseOp.closeTransport]

/-- Embeds `Server.kill_process`: when a process exists, close its stdout,
stdin and stderr pipes and kill it if `poll()` shows it still running. -/
def Server.kill_processOps (hasProcess processRunning : Bool) : List CloseOp :=
  if hasProcess then
    [CloseOp.closeStdout, CloseOp.closeStdin, CloseOp.closeStderr]
      ++ (if processRunning then [CloseOp.killProcess] else [])
  else []

/-- Embeds the `finally` block of `Server.__init__`:
`self.kill_process(process)`, then `client.close()`, then
`self.transport.close()`. -/
def Server.teardownOps (hasProcess processRunning : Bool) : List CloseOp :=
  Server.kill_processOps hasProcess processRunning
    ++ [CloseOp.closeClient, CloseOp.closeTransport]

/-- A parsed routing address: username, host and port. -/
structure HostSpec where
  username : List Char
  host : List Char
  port : Nat
deriving DecidableEq

/-- Splits a character list at the first occurrence of `c`, returning the
part before and the part after; `none` when `c` does not occur. -/
def splitAtFirst (c : Char) : List Char → Option (List Char × List Char)
  | [] => none
  | x :: xs =>
      if x = c then some ([], xs)
      else
        match splitAtFirst c xs with
        | none => none
        | some (a, b) => some (x :: a, b)

/-- A decimal digit character, by code point. -/
def isDigitCh (c : Char) : Bool := 48 ≤ c.toNat && c.toNat ≤ 57

/-- Decimal value of a digit string: `none` when the string is empty or
contains a non-digit character. -/
def digitsVal (l : List Char) : Option Nat :=
  if !l.isEmpty && l.all isDigitCh then
    some (l.foldl (fun acc c => 10 * acc + (c.toNat - 48)) 0)
  else none

/-- Modelled from the spec: the protocol's standard default port (the
secure-shell port 22), applied when the routing string omits the port. -/
def SSH_PORT : Nat := 22

/-- Modelled from the spec: `parse_host_string` (`util.py` is not under
src/).  Spec section 4.5: grammar `username "@" host [":" port]`; the port
defaults to the protocol's standard port when omitted; parsing fails when
the `@` separator is missing, when the host is empty, or when a port is
present but not a valid non-negative integer. -/
def parse_host_string (s : List Char) : Option HostSpec :=
  match splitAtFirst '@' s with
  | none => none
  | some (u, rest) =>
      match splitAtFirst ':' rest with
      | none => if rest.isEmpty then none else some ⟨u, rest, SSH_PORT⟩
      | some (h, pstr) =>
          if h.isEmpty then none
          else
            match digitsVal pstr with
            | none => none
            | some p => some ⟨u, h, p⟩

/-- Fuel-indexed decimal printer: most-significant digit first. -/
def natCharsAux : Nat → Nat → List Char
  | 0, _ => []
  | fuel + 1, n =>
      if n = 0 then []
      else natCharsAux fuel (n / 10) ++ [Char.ofNat (n % 10 + 48)]

/-- Canonical decimal rendering of a natural number. -/
def natChars (n : Nat) : List Char :=
  if n = 0 then ['0'] else natCharsAux (n + 1) n

/-- Reconstruction of a routing string from parsed fields:
`username ++ "@" ++ host ++ ":" ++ port`. -/
def hostSpecString (hs : HostSpec) : List Char :=
  hs.username ++ ('@' :: (hs.host ++ (':' :: natChars hs.port)))

/-- The parameters of the outbound `client.connect(host, port, username=...)`
call made by `Proxy.connect_to_remote`. -/
structure ConnectParams where
  username : List Char
  host : List Char
  port : Nat
deriving DecidableEq

/-- Embeds `Proxy.connect_to_remote`: the outbound connection is opened to
`host`/`port` authenticating as `username` (the remaining keyword arguments
carry the proxy's own identity material and pass through unchanged). -/
def Proxy.connect_to_remote (host : List Char) (port : Nat) (username : List Char) :
    ConnectParams :=
  ⟨username, host, port⟩

/-- The Python exceptions the ProxyServer relay path can raise before a
connection is attempted. -/
inductive RelayError
  | keyError
  | parseError
deriving DecidableEq

/-- Observable outcome of a successful relay resolution: the outbound
connection parameters and the command executed on that connection. -/
structure RelayOutcome where
  connect : ConnectParams
  execCommand : String
deriving DecidableEq

/-- Embeds the resolution part of `Proxy.relay_to_remote`: connect to the
remote via `connect_to_remote`, open a session and `exec_command(command)`
on it exactly once. -/
def Proxy.relay_to_remote_resolve (command : String) (host : List Char) (port : Nat)
    (username : List Char) : RelayOutcome :=
  { connect := Proxy.connect_to_remote host port username, execCommand := command }

/-- The session-scoped environment set by set-environment requests: a
key/value store with latest-set-wins lookup. -/
def envLookup (env : List (List Char × List Char)) (k : List Char) : Option (List Char) :=
  match env with
  | [] => none
  | (k2, v) :: rest => if k2 = k then some v else envLookup rest k

/-- Embeds `ProxyServer.check_channel_env_request`: `self.env[key] = value`
and return `True`.  The newest binding shadows older ones, matching dict
assignment. -/
def ProxyServer.check_channel_env_request (env : List (List Char × List Char))
    (key value : List Char) : List (List Char × List Char) × Bool :=
  ((key, value) :: env, true)

/-- Embeds `ProxyServer.HOST = b'__HOST__'`, the reserved routing variable. -/
def ProxyServer.HOST : List Char := "__HOST__".data

/-- Embeds `ProxyServer.relay_to_remote`: look up the reserved routing
variable in the session environment (a missing key raises `KeyError`),
parse it with `parse_host_string` (a failure raises before connecting), and
call the parent relay with the parsed username, host and port overriding
the keyword arguments — in particular overriding `callerUsername`, the
inbound caller's username that `Proxy.__init__` passed along. -/
def ProxyServer.relay_to_remote (env : List (List Char × List Char))
    (_callerUsername : Option (List Char)) (command : String) :
    Except RelayError RelayOutcome :=
  match envLookup env ProxyServer.HOST with
  | none => Except.error RelayError.keyError
  | some v =>
      match parse_host_string v with
      | none => Except.error RelayError.parseError
      | some hs => Except.ok (Proxy.relay_to_remote_resolve command hs.host hs.port hs.username)

lemma deliverExecRequests_eq (reqs : List (Nat × String)) :
    ∀ st : SessionState, deliverExecRequests st reqs = { st with queue := st.queue ++ reqs } := by
  induction reqs with
  | nil => intro st; simp [deliverExecRequests]
  | cons r rs ih =>
      intro st
      simp only [deliverExecRequests, List.foldl_cons] at *
      rw [ih]
      simp [ServerInterface.check_channel_exec_request]

/-- Claim C1: on every session, exactly one command — the first delivered —
is executed on the resolved target, exactly once; later execute-command
requests are accepted into the queue (the callback returns `True` and they
remain queued) but have no additional effect on what is executed. -/
theorem first_command_executed_exactly_once (ch : Nat) (c : String)
    (rest : List (Nat × String)) :
    (Proxy.runSession ((ch, c) :: rest)).2 = [c] ∧
    (Proxy.runSession ((ch, c) :: rest)).2 = (Proxy.runSession [(ch, c)]).2 ∧
    (Proxy.runSession ((ch, c) :: rest)).1.queue = rest ∧
    (∀ st chan cmd, (ServerInterface.check_channel_exec_request st chan cmd).2 = true) := by
  refine ⟨?_, ?_, ?_, fun st chan cmd => rfl⟩ <;>
    simp [Proxy.runSession, deliverExecRequests_eq, ServerInterface.get_command, initialSession]

/-- Claim C5: with no execute-command request delivered within the 10-second
rendezvous window, `get_command` returns no pair, closes the transport and
logs the failure, and the session performs no relay. -/
theorem command_timeout_aborts_session :
    ServerInterface.timeout = 10 ∧
    (Proxy.runSession []).2 = [] ∧
    (Proxy.runSession []).1.transportClosed = true ∧
    (Proxy.runSession []).1.loggedErrors = ["Client passed no commands"] ∧
    (∀ st : SessionState, st.queue = [] →
      (ServerInterface.get_command st).2 = none ∧
      (ServerInterface.get_command st).1.transportClosed = true ∧
      (ServerInterface.get_command st).1.loggedErrors
        = st.loggedErrors ++ ["Client passed no commands"]) := by
  refine ⟨rfl, ?_, ?_, ?_, ?_⟩
  · rfl
  · rfl
  · rfl
  · intro st hq
    simp [ServerInterface.get_command, hq]

/-- Witness for claim C5 at the fresh session state. -/
theorem command_timeout_aborts_session_witness :
    (ServerInterface.get_command initialSession).2 = none ∧
    (ServerInterface.get_command initialSession).1.transportClosed = true :=
  ⟨(command_timeout_aborts_session.2.2.2.2 initialSession rfl).1,
   (command_timeout_aborts_session.2.2.2.2 initialSession rfl).2.1⟩

/-- Claim C6: the credential-less authentication check always reports
success and the advertised method list is exactly the string `none`, in
both the Proxy and the Server variant. -/
theorem auth_none_always_succeeds (st : ProxyAuthState) (username : String) :
    (Proxy.check_auth_none st username).2 = AUTH_SUCCESSFUL ∧
    Proxy.get_allowed_auths username = "none" ∧
    Server.check_auth_none username = AUTH_SUCCESSFUL ∧
    Server.get_allowed_auths username = "none" :=
  ⟨rfl, rfl, rfl, rfl⟩

/-- Claim C10: a channel-open request succeeds exactly when the requested
kind is `session`; every other kind is rejected with the
administratively-prohibited code. -/
theorem check_channel_request_session_only (kind : String) (chanid : Nat) :
    (ServerInterface.check_channel_request kind chanid = OPEN_SUCCEEDED ↔ kind = "session") ∧
    (ServerInterface.check_channel_request kind chanid
        = OPEN_FAILED_ADMINISTRATIVELY_PROHIBITED ↔ kind ≠ "session") := by
  by_cases hk : kind = "session" <;>
    simp [ServerInterface.check_channel_request, hk, OPEN_SUCCEEDED,
      OPEN_FAILED_ADMINISTRATIVELY_PROHIBITED]

/-- Witness for claim C10 at the two concrete kinds. -/
theorem check_channel_request_session_only_witness :
    ServerInterface.check_channel_request "session" 0 = OPEN_SUCCEEDED ∧
    ServerInterface.check_channel_request "direct-tcpip" 1
      = OPEN_FAILED_ADMINISTRATIVELY_PROHIBITED :=
  ⟨(check_channel_request_session_only "session" 0).1.mpr rfl,
   (check_channel_request_session_only "direct-tcpip" 1).2.mpr (by decide)⟩

/-- Claim C3 counterexample: in `Proxy.relay_to_remote` the exit-status send
is guarded only by `remote.exit_status_ready()`, so with the client channel
already closed and the remote status ready, a status delivery to the client
is still attempted — the claim's clause that no delivery is attempted when
the client has closed is false on the code. -/
theorem exit_status_sent_to_closed_client :
    (Chan.mk true true 7).closed = true ∧
    Proxy.exitStatusPhase (Chan.mk true true 7) (Chan.mk false true 7) = [7] :=
  ⟨rfl, rfl⟩

/-- Claim C3 (amended): when the target's exit status is ready after piping,
the Proxy variant sends exactly that status to the client regardless of
whether the client endpoint has closed (and sends nothing when the status
is not ready); the Server variant sends the process status exactly when the
client endpoint is still open, and attempts no delivery once it closed. -/
theorem exit_status_delivery_per_variant (client remote : Chan) (s : Nat) :
    (remote.exitStatusReady = true →
      Proxy.exitStatusPhase client remote = [remote.exitStatus]) ∧
    (remote.exitStatusReady = false → Proxy.exitStatusPhase client remote = []) ∧
    (client.closed = false → Server.exitStatusPhase client s = [s]) ∧
    (client.closed = true → Server.exitStatusPhase client s = []) := by
  refine ⟨?_, ?_, ?_, ?_⟩ <;> intro hyp <;>
    simp [Proxy.exitStatusPhase, Server.exitStatusPhase, hyp]

/-- Witness for the amended claim C3 at concrete channels and status. -/
theorem exit_status_delivery_per_variant_witness :
    Proxy.exitStatusPhase (Chan.mk false false 0) (Chan.mk false true 5) = [5] ∧
    Server.exitStatusPhase (Chan.mk false false 0) 3 = [3] :=
  ⟨(exit_status_delivery_per_variant (Chan.mk false false 0) (Chan.mk false true 5) 3).1 rfl,
   (exit_status_delivery_per_variant (Chan.mk false false 0) (Chan.mk false true 5) 3).2.2.1 rfl⟩

lemma runCloses_of_no_failure (fails : CloseOp → Bool) (hnf : ∀ o, fails o = false) :
    ∀ ops : List CloseOp, runCloses fails ops = (ops, false) := by
  intro ops
  induction ops with
  | nil => rfl
  | cons o rest ih => simp [runCloses, hnf o, ih]

/-- Claim C4 counterexample: the teardown closes sit in one `finally` block
with no per-close guard, so when `client.close()` raises, the remote close
and the transport close are skipped — the claim's independent-guarding
clause is false on the code. -/
theorem failing_close_skips_remaining_closes :
    CloseOp.closeTransport ∈ Proxy.teardownOps true ∧
    (runCloses (fun o => decide (o = CloseOp.closeClient)) (Proxy.teardownOps true)).1
      = [CloseOp.closeClient] ∧
    CloseOp.closeTransport ∉
      (runCloses (fun o => decide (o = CloseOp.closeClient)) (Proxy.teardownOps true)).1 := by
  decide

/-- Claim C4 (amended): on every session termination after a command was
consumed, whether the relay completed or failed, the `finally` teardown runs
the full close sequence — client endpoint, target endpoint (for the Server
variant: the spawned process's pipes, killing it if still running) and the
underlying transport — and when no individual close fails every one of them
is performed and no exception escapes; the closes are not individually
guarded, so a failing close aborts the remaining ones. -/
theorem teardown_closes_everything_when_no_close_fails (fails : CloseOp → Bool)
    (hnf : ∀ o, fails o = false) (hasRemote hasProcess running : Bool) :
    runCloses fails (Proxy.teardownOps hasRemote) = (Proxy.teardownOps hasRemote, false) ∧
    runCloses fails (Server.teardownOps hasProcess running)
      = (Server.teardownOps hasProcess running, false) ∧
    CloseOp.closeClient ∈ Proxy.teardownOps hasRemote ∧
    CloseOp.closeTransport ∈ Proxy.teardownOps hasRemote ∧
    (hasRemote = true → CloseOp.closeRemote ∈ Proxy.teardownOps hasRemote) ∧
    CloseOp.closeClient ∈ Server.teardownOps hasProcess running ∧
    CloseOp.closeTransport ∈ Server.teardownOps hasProcess running ∧
    (hasProcess = true → running = true →
      CloseOp.killProcess ∈ Server.teardownOps hasProcess running) := by
  refine ⟨runCloses_of_no_failure fails hnf _, runCloses_of_no_failure fails hnf _,
    ?_, ?_, ?_, ?_, ?_, ?_⟩ <;>
    cases hasRemote <;> cases hasProcess <;> cases running <;>
      simp [Proxy.teardownOps, Server.teardownOps, Server.kill_processOps]

/-- Witness for the amended claim C4 with no failing close and all resources
present. -/
theorem teardown_closes_everything_witness :
    runCloses (fun _ => false) (Proxy.teardownOps true) = (Proxy.teardownOps true, false) ∧
    CloseOp.killProcess ∈ Server.teardownOps true true :=
  ⟨(teardown_closes_everything_when_no_close_fails (fun _ => false) (fun _ => rfl)
      true true true).1,
   (teardown_closes_everything_when_no_close_fails (fun _ => false) (fun _ => rfl)
      true true true).2.2.2.2.2.2.2 rfl rfl⟩

lemma stepDir_sink_src (d : Dir) : (stepDir d).sink ++ (stepDir d).src = d.sink ++ d.src := by
  simp [stepDir, List.append_assoc, List.take_append_drop]

lemma pipe_streams_sink_src (sched : List Direction) :
    ∀ st : RelayState,
      ((pipe_streams st sched).inputDir.sink ++ (pipe_streams st sched).inputDir.src
          = st.inputDir.sink ++ st.inputDir.src) ∧
      ((pipe_streams st sched).outputDir.sink ++ (pipe_streams st sched).outputDir.src
          = st.outputDir.sink ++ st.outputDir.src) ∧
      ((pipe_streams st sched).errDir.sink ++ (pipe_streams st sched).errDir.src
          = st.errDir.sink ++ st.errDir.src) := by
  induction sched with
  | nil => intro st; exact ⟨rfl, rfl, rfl⟩
  | cons d ds ih =>
      intro st
      have hstep := ih (relayStep st d)
      simp only [pipe_streams, List.foldl_cons] at hstep ⊢
      cases d with
      | inputD => exact ⟨hstep.1.trans (stepDir_sink_src st.inputDir), hstep.2.1, hstep.2.2⟩
      | outputD => exact ⟨hstep.1, hstep.2.1.trans (stepDir_sink_src st.outputDir), hstep.2.2⟩
      | errD => exact ⟨hstep.1, hstep.2.1, hstep.2.2.trans (stepDir_sink_src st.errDir)⟩

/-- Claim C2: for every schedule interleaving the three relay directions,
each direction's sink holds exactly the bytes read so far from its own
source, in order (so nothing from the error direction can appear in the
output direction or vice versa), and once the relay is drained each sink
equals its source byte sequence exactly — no loss, duplication or
reordering. -/
theorem relay_delivers_exact_bytes (a b c : List Nat) (sched : List Direction) :
    ((pipe_streams (initRelay a b c) sched).inputDir.sink
        ++ (pipe_streams (initRelay a b c) sched).inputDir.src = a) ∧
    ((pipe_streams (initRelay a b c) sched).outputDir.sink
        ++ (pipe_streams (initRelay a b c) sched).outputDir.src = b) ∧
    ((pipe_streams (initRelay a b c) sched).errDir.sink
        ++ (pipe_streams (initRelay a b c) sched).errDir.src = c) ∧
    (drained (pipe_streams (initRelay a b c) sched) = true →
      (pipe_streams (initRelay a b c) sched).inputDir.sink = a ∧
      (pipe_streams (initRelay a b c) sched).outputDir.sink = b ∧
      (pipe_streams (initRelay a b c) sched).errDir.sink = c) := by
  have hinv := pipe_streams_sink_src sched (initRelay a b c)
  have h1 : (pipe_streams (initRelay a b c) sched).inputDir.sink
      ++ (pipe_streams (initRelay a b c) sched).inputDir.src = a := by
    simpa [initRelay] using hinv.1
  have h2 : (pipe_streams (initRelay a b c) sched).outputDir.sink
      ++ (pipe_streams (initRelay a b c) sched).outputDir.src = b := by
    simpa [initRelay] using hinv.2.1
  have h3 : (pipe_streams (initRelay a b c) sched).errDir.sink
      ++ (pipe_streams (initRelay a b c) sched).errDir.src = c := by
    simpa [initRelay] using hinv.2.2
  refine ⟨h1, h2, h3, fun hdr => ?_⟩
  simp only [drained, Bool.and_eq_true, List.isEmpty_iff] at hdr
  obtain ⟨⟨e1, e2⟩, e3⟩ := hdr
  rw [e1] at h1
  rw [e2] at h2
  rw [e3] at h3
  exact ⟨by simpa using h1, by simpa using h2, by simpa using h3⟩

/-- Witness for claim C2 at concrete byte sequences under a schedule that
drains all three directions. -/
theorem relay_delivers_exact_bytes_witness :
    (pipe_streams (initRelay [1, 2] [3] [4])
        [Direction.inputD, Direction.outputD, Direction.errD]).inputDir.sink = [1, 2] ∧
    (pipe_streams (initRelay [1, 2] [3] [4])
        [Direction.inputD, Direction.outputD, Direction.errD]).outputDir.sink = [3] ∧
    (pipe_streams (initRelay [1, 2] [3] [4])
        [Direction.inputD, Direction.outputD, Direction.errD]).errDir.sink = [4] :=
  (relay_delivers_exact_bytes [1, 2] [3] [4]
    [Direction.inputD, Direction.outputD, Direction.errD]).2.2.2 (by decide)

/-- Claim C7: in outbound-relay mode the outbound connection parameters are
exactly the username, host and port parsed from the reserved routing
variable — never the inbound caller's username — and the consumed command
is executed on that connection; concretely, with the routing variable set
to `bob@10.0.0.5:2222` and command `ls`, the proxy connects to host
`10.0.0.5` on port `2222` as `bob` and executes `ls` there. -/
theorem outbound_target_from_routing_variable (env : List (List Char × List Char))
    (callerUsername : Option (List Char)) (command : String) (v : List Char) (hs : HostSpec)
    (henv : envLookup env ProxyServer.HOST = some v)
    (hparse : parse_host_string v = some hs) :
    ProxyServer.relay_to_remote env callerUsername command
      = Except.ok ⟨⟨hs.username, hs.host, hs.port⟩, command⟩ ∧
    parse_host_string "bob@10.0.0.5:2222".data
      = some ⟨"bob".data, "10.0.0.5".data, 2222⟩ ∧
    ProxyServer.relay_to_remote
        (ProxyServer.check_channel_env_request [] ProxyServer.HOST
          "bob@10.0.0.5:2222".data).1 callerUsername "ls"
      = Except.ok ⟨⟨"bob".data, "10.0.0.5".data, 2222⟩, "ls"⟩ := by
  refine ⟨?_, by decide, ?_⟩
  · simp [ProxyServer.relay_to_remote, henv, hparse, Proxy.relay_to_remote_resolve,
      Proxy.connect_to_remote]
  · have hp : parse_host_string "bob@10.0.0.5:2222".data
        = some ⟨"bob".data, "10.0.0.5".data, 2222⟩ := by decide
    have he : envLookup (ProxyServer.check_channel_env_request [] ProxyServer.HOST
        "bob@10.0.0.5:2222".data).1 ProxyServer.HOST = some "bob@10.0.0.5:2222".data := by
      decide
    simp [ProxyServer.relay_to_remote, he, hp, Proxy.relay_to_remote_resolve,
      Proxy.connect_to_remote]

/-- Witness for claim C7 at the concrete routing variable and command. -/
theorem outbound_target_from_routing_variable_witness :
    ProxyServer.relay_to_remote [(ProxyServer.HOST, "bob@10.0.0.5:2222".data)]
        (some "alice".data) "ls"
      = Except.ok ⟨⟨"bob".data, "10.0.0.5".data, 2222⟩, "ls"⟩ :=
  (outbound_target_from_routing_variable [(ProxyServer.HOST, "bob@10.0.0.5:2222".data)]
    (some "alice".data) "ls" "bob@10.0.0.5:2222".data
    ⟨"bob".data, "10.0.0.5".data, 2222⟩ (by decide) (by decide)).1

/-- Claim C9: in outbound-relay mode, when the reserved routing variable was
never set before the command was consumed, `ProxyServer.relay_to_remote`
raises `KeyError` on the environment lookup, and no outcome (no parse, no
outbound connection, no command execution) is produced. -/
theorem missing_routing_variable_raises_key_error (env : List (List Char × List Char))
    (callerUsername : Option (List Char)) (command : String)
    (henv : envLookup env ProxyServer.HOST = none) :
    ProxyServer.relay_to_remote env callerUsername command
      = Except.error RelayError.keyError ∧
    (∀ outcome : RelayOutcome,
      ProxyServer.relay_to_remote env callerUsername command ≠ Except.ok outcome) := by
  have hmain : ProxyServer.relay_to_remote env callerUsername command
      = Except.error RelayError.keyError := by
    simp [ProxyServer.relay_to_remote, henv]
  exact ⟨hmain, fun outcome hok => by rw [hmain] at hok; exact Except.noConfusion hok⟩

/-- Witness for claim C9 at the empty session environment. -/
theorem missing_routing_variable_raises_key_error_witness :
    ProxyServer.relay_to_remote [] none "ls" = Except.error RelayError.keyError :=
  (missing_routing_variable_raises_key_error [] none "ls" rfl).1

lemma splitAtFirst_append (c : Char) (a b : List Char) (ha : c ∉ a) :
    splitAtFirst c (a ++ c :: b) = some (a, b) := by
  induction a with
  | nil => simp [splitAtFirst]
  | cons x xs ih =>
      have hx : ¬ x = c := fun hh => ha (hh ▸ List.mem_cons_self x xs)
      have hxs : c ∉ xs := fun hh => ha (List.mem_cons_of_mem x hh)
      simp only [List.cons_append, splitAtFirst, if_neg hx, List.append_eq, ih hxs]

lemma splitAtFirst_of_not_mem (c : Char) (l : List Char) (h : c ∉ l) :
    splitAtFirst c l = none := by
  induction l with
  | nil => rfl
  | cons x xs ih =>
      have hx : ¬ x = c := fun hh => h (hh ▸ List.mem_cons_self x xs)
      have hxs : c ∉ xs := fun hh => h (List.mem_cons_of_mem x hh)
      simp only [splitAtFirst, if_neg hx, ih hxs]

lemma char_ofNat_digit_toNat (d : Nat) (hd : d < 10) :
    (Char.ofNat (d + 48)).toNat = d + 48 := by
  interval_cases d <;> decide

lemma isDigitCh_ofNat (d : Nat) (hd : d < 10) : isDigitCh (Char.ofNat (d + 48)) = true := by
  interval_cases d <;> decide

lemma natCharsAux_all_digits (fuel : Nat) :
    ∀ n : Nat, (natCharsAux fuel n).all isDigitCh = true := by
  induction fuel with
  | zero => intro n; rfl
  | succ f ih =>
      intro n
      by_cases hn : n = 0
      · simp [natCharsAux, hn]
      · simp only [natCharsAux, if_neg hn, List.all_append, Bool.and_eq_true]
        exact ⟨ih (n / 10), by simp [isDigitCh_ofNat (n % 10) (Nat.mod_lt n (by norm_num))]⟩

lemma natCharsAux_foldl (fuel : Nat) :
    ∀ n acc : Nat, n < fuel →
      (natCharsAux fuel n).foldl (fun a c => 10 * a + (c.toNat - 48)) acc
        = acc * 10 ^ (natCharsAux fuel n).length + n := by
  induction fuel with
  | zero => intro n _ h; exact absurd h (Nat.not_lt_zero n)
  | succ f ih =>
      intro n acc h
      by_cases hn : n = 0
      · simp [natCharsAux, hn]
      · have hlt : n / 10 < f :=
          Nat.lt_of_lt_of_le (Nat.div_lt_self (Nat.pos_of_ne_zero hn) (by norm_num))
            (Nat.lt_succ_iff.mp h)
        simp only [natCharsAux, if_neg hn, List.foldl_append, List.length_append,
          List.foldl_cons, List.foldl_nil, List.length_cons, List.length_nil]
        rw [ih (n / 10) acc hlt, char_ofNat_digit_toNat (n % 10) (Nat.mod_lt n (by norm_num))]
        have hmod : n % 10 + 48 - 48 = n % 10 := by omega
        rw [hmod]
        have hdm : 10 * (n / 10) + n % 10 = n := Nat.div_add_mod n 10
        have hpow : 10 ^ ((natCharsAux f (n / 10)).length + (0 + 1))
            = 10 ^ (natCharsAux f (n / 10)).length * 10 := by
          rw [pow_succ]
        rw [hpow]
        nlinarith [hdm]

lemma natCharsAux_ne_nil (n : Nat) (hn : n ≠ 0) : natCharsAux (n + 1) n ≠ [] := by
  simp [natCharsAux, if_neg hn]

lemma digitsVal_natChars (n : Nat) : digitsVal (natChars n) = some n := by
  by_cases hn : n = 0
  · subst hn; decide
  · have hne := natCharsAux_ne_nil n hn
    have hempty : (natCharsAux (n + 1) n).isEmpty = false := by
      cases hcase : natCharsAux (n + 1) n with
      | nil => exact absurd hcase hne
      | cons x xs => rfl
    simp only [natChars, if_neg hn, digitsVal, hempty, Bool.not_false,
      natCharsAux_all_digits (n + 1) n, Bool.and_self, if_pos]
    rw [natCharsAux_foldl (n + 1) n 0 (Nat.lt_succ_self n)]
    simp

/-- Claim C8: parsing a routing string of the form `user@host:port` yields
exactly that username, host and port — so reconstructing the string from
the parsed fields gives back the input — and parsing `user@host` with the
port omitted yields the protocol's standard default port 22. -/
theorem parse_host_string_round_trip (u h : List Char) (p : Nat)
    (hu : '@' ∉ u) (hh0 : h ≠ []) (hh : ':' ∉ h) :
    parse_host_string (hostSpecString ⟨u, h, p⟩) = some ⟨u, h, p⟩ ∧
    (∀ hs : HostSpec, parse_host_string (hostSpecString ⟨u, h, p⟩) = some hs →
      hostSpecString hs = hostSpecString ⟨u, h, p⟩) ∧
    parse_host_string (u ++ '@' :: h) = some ⟨u, h, SSH_PORT⟩ ∧
    SSH_PORT = 22 := by
  have hhe : h.isEmpty = false := by
    cases hcase : h with
    | nil => exact absurd hcase hh0
    | cons x xs => rfl
  have hfull : parse_host_string (hostSpecString ⟨u, h, p⟩) = some ⟨u, h, p⟩ := by
    simp only [hostSpecString, parse_host_string,
      splitAtFirst_append '@' u (h ++ ':' :: natChars p) hu,
      splitAtFirst_append ':' h (natChars p) hh, hhe, digitsVal_natChars p,
      Bool.false_eq_true, if_false]
  have hdefault : parse_host_string (u ++ '@' :: h) = some ⟨u, h, SSH_PORT⟩ := by
    simp only [parse_host_string, splitAtFirst_append '@' u h hu,
      splitAtFirst_of_not_mem ':' h hh, hhe, Bool.false_eq_true, if_false]
  refine ⟨hfull, fun hs hparse => ?_, hdefault, rfl⟩
  rw [hfull] at hparse
  rw [Option.some_inj.mp hparse]

/-- Witness for claim C8 at a concrete username, host and port. -/
theorem parse_host_string_round_trip_witness :
    parse_host_string (hostSpecString ⟨"bob".data, "example.com".data, 2222⟩)
      = some ⟨"bob".data, "example.com".data, 2222⟩ ∧
    parse_host_string ("bob".data ++ '@' :: "example.com".data)
      = some ⟨"bob".data, "example.com".data, SSH_PORT⟩ :=
  ⟨(parse_host_string_round_trip "bob".data "example.com".data 2222
      (by decide) (by decide) (by decide)).1,
   (parse_host_string_round_trip "bob".data "example.com".data 2222
      (by decide) (by decide) (by decide)).2.2.1⟩

end SSHForwardProxy
